import Mathlib

/-!
Shallow embedding of `utils.py` from the ICRA2017 repository.

The file models the four functions of the source:

* `rotX`, `rotY`, `rotZ` (utils.py lines 8-80): builders of 3x3 rotation
  matrices, modelled over the real numbers with `Real.cos` / `Real.sin`
  (the idealisation of NumPy's double-precision trigonometry).
* `getDistinguishableColors` (utils.py lines 84-147): greedy farthest-point
  selection of colors over a discretised RGB grid.  All numeric values that
  occur in this function (grid samples `i/29`, L1 distances, background
  channels used in the claims) are rational, so the float arithmetic is
  modelled exactly by `ℚ`; NumPy's `inf` sentinel is modelled by
  `WithTop ℚ`, whose order (`⊤` greatest) matches IEEE comparisons
  against `inf` on the values the algorithm produces.

Python exceptions are modelled by an explicit error type: the source can
raise `ValueError` (explicit `raise` statements) and `IndexError`
(`bgColors[-1]` on an empty list), so results are `Except PyError _`.
-/

/-- Errors the Python source can raise: `ValueError(msg)` from an explicit
`raise`, and `IndexError` from indexing `bgColors[-1]` on an empty list. -/
inductive PyError where
  | valueError (msg : String) : PyError
  | indexError : PyError
deriving DecidableEq

/-- An RGB triple, as the Python tuples `(r, g, b)` of floats; modelled
exactly over `ℚ` (every value reached in this development is rational). -/
abbrev Color : Type := ℚ × ℚ × ℚ

/-- Number of grid divisions along each axis in RGB space
(utils.py line 112: `numGrid = 30`). -/
def numGrid : ℕ := 30

/-- The `t`-th entry of `np.linspace(0, 1, numGrid)` (utils.py line 113):
`numGrid` evenly spaced samples of [0,1], i.e. the rational `t / (numGrid - 1)`
(written with `mkRat` so that it evaluates by kernel reduction). -/
def gridVal (t : ℕ) : ℚ := mkRat t (numGrid - 1)

/-- Number of rows of the candidate array `rgb`: `numGrid³ = 27000`. -/
def totalGrid : ℕ := numGrid * numGrid * numGrid

/-- Row `m` of the candidate array `rgb` built in utils.py lines 114-117 by
`np.meshgrid(x, x, x)` (default `indexing='xy'`) followed by transposing each
coordinate block and reshaping in C order.  Unfolding those NumPy semantics:
with `'xy'` indexing `R[n,m,p] = x[m]`, `G[n,m,p] = x[n]`, `B[n,m,p] = x[p]`;
the transpose reverses the three axes and the C-order flatten sends the
multi-index `(p, m, n)` to flat position `p*900 + m*30 + n`.  Hence flat row
`m` of the concatenated array is
`(x[(m / 30) % 30], x[m % 30], x[m / 900])`. -/
def rgbAt (m : ℕ) : Color :=
  (gridVal ((m / numGrid) % numGrid), gridVal (m % numGrid),
    gridVal (m / (numGrid * numGrid)))

/-- The candidate array `rgb` (utils.py lines 114-117), as the list of its
`totalGrid` rows. -/
def rgbList : List Color := (List.range totalGrid).map rgbAt

/-- L1 distance between two RGB triples:
`np.sum(np.abs(p - q))` over the three channels (utils.py lines 129, 140). -/
def dist1 (p q : Color) : ℚ :=
  |p.1 - q.1| + |p.2.1 - q.2.1| + |p.2.2 - q.2.2|

/-- NumPy's cast of a float into an `int64` array cell truncates toward zero
(C conversion semantics).  On a rational `q` this is `q.num.tdiv q.den`. -/
def truncQ (q : ℚ) : ℚ := ((q.num.tdiv (q.den : ℤ) : ℤ) : ℚ)

/-- The color actually stored by `col[:,0] = c[0]; col[:,1] = c[1];
col[:,2] = c[2]` in utils.py lines 125-128: `col = np.full(rgb.shape, 1)`
is an *integer* array (dtype inferred from the fill value `1`), so each
channel of `c` is truncated toward zero when assigned. -/
def truncColor (c : Color) : Color := (truncQ c.1, truncQ c.2.1, truncQ c.2.2)

/-- The initial distance accumulator
`mindist = np.full(rgb.shape[0], np.inf)` (utils.py line 123). -/
def mindistInit : List (WithTop ℚ) := List.replicate rgbList.length ⊤

/-- One iteration of the seeding loop (utils.py lines 124-130): build the
integer array `col` holding the truncated channels of the background color
`c`, compute `dx = np.sum(np.abs(rgb - col), axis=1)` and update
`mindist = np.minimum(mindist, dx)`. -/
def seedStep (mindist : List (WithTop ℚ)) (c : Color) : List (WithTop ℚ) :=
  List.zipWith (fun d p => min d ((dist1 p (truncColor c) : ℚ) : WithTop ℚ))
    mindist rgbList

/-- The distance accumulator after the whole seeding loop over `bgColors`
(utils.py lines 123-130). -/
def seedMindist (bgColors : List Color) : List (WithTop ℚ) :=
  bgColors.foldl seedStep mindistInit

/-- The distance update inside the selection loop (utils.py lines 140-141):
`dx = np.sum(np.abs(rgb - lastColor), axis=1)` — note this uses the float
tuple `lastColor` directly (the integer array `col` built on lines 136-139
is dead code there) — followed by `mindist = np.minimum(mindist, dx)`. -/
def updateStep (lastColor : Color) (mindist : List (WithTop ℚ)) :
    List (WithTop ℚ) :=
  List.zipWith (fun d p => min d ((dist1 p lastColor : ℚ) : WithTop ℚ))
    mindist rgbList

/-- Scanning worker for `np.argmax`: keeps the index `best` of the running
maximum `bestVal`, updating only on a strictly larger value, so the first
occurrence of the maximum wins; `i` is the index of the head of the
remaining list. -/
def npArgmaxGo : List (WithTop ℚ) → ℕ → ℕ → WithTop ℚ → ℕ
  | [], _, best, _ => best
  | d :: ds, i, best, bestVal =>
    if bestVal < d then npArgmaxGo ds (i + 1) i d
    else npArgmaxGo ds (i + 1) best bestVal

/-- `np.argmax` (utils.py line 142): index of the first occurrence of the
maximum value.  (NumPy errors on an empty array; the algorithm only applies
it to the 27000-row accumulator, so the `[]` case is arbitrary.) -/
def npArgmax : List (WithTop ℚ) → ℕ
  | [] => 0
  | d :: ds => npArgmaxGo ds 1 0 d

/-- The greedy selection loop (utils.py lines 135-145), one step per
requested color: update `mindist` against `lastColor`, take the argmax,
append `chosenColor = (rgb[index,0], rgb[index,1], rgb[index,2])` and
recurse with it as the new reference point. -/
def selectLoop : ℕ → Color → List (WithTop ℚ) → List Color
  | 0, _, _ => []
  | n + 1, lastColor, mindist =>
    let mindist2 := updateStep lastColor mindist
    let index := npArgmax mindist2
    let chosenColor := rgbList.getD index ((0 : ℚ), (0 : ℚ), (0 : ℚ))
    chosenColor :: selectLoop n chosenColor mindist2

/-- `getDistinguishableColors` (utils.py lines 84-147).  The bound check of
line 118 compares the Python int `numColors` with the float
`rgb.shape[0] / 3` (true division); both are exact here.  If `bgColors` is
empty, line 134 (`lastColor = bgColors[-1]`) raises `IndexError`; the
seeding loop before it is a no-op in that case. -/
def getDistinguishableColors (numColors : ℤ) (bgColors : List Color) :
    Except PyError (List Color) :=
  if (numColors : ℚ) > (rgbList.length : ℚ) / 3 then
    .error (.valueError
      "You cannot really distinguish that many colors! At most 9000 colors")
  else
    match bgColors.getLast? with
    | none => .error .indexError
    | some lastColor =>
      .ok (selectLoop numColors.toNat lastColor (seedMindist bgColors))

/-- Modelled from the spec: the variant of the selection loop described in
the Design Notes, which skips the first iteration's running-minimum update
against `bgColors[-1]` and takes the first argmax directly over the seeded
distances; subsequent iterations proceed as in the source. -/
def selectLoopVariant : ℕ → List (WithTop ℚ) → List Color
  | 0, _ => []
  | n + 1, mindist =>
    let index := npArgmax mindist
    let chosenColor := rgbList.getD index ((0 : ℚ), (0 : ℚ), (0 : ℚ))
    chosenColor :: selectLoop n chosenColor mindist

/-- Modelled from the spec: `getDistinguishableColors` with the first
loop iteration's redundant re-application of the last background color
skipped (Design Notes variant); validation and seeding are unchanged. -/
def getDistinguishableColorsVariant (numColors : ℤ) (bgColors : List Color) :
    Except PyError (List Color) :=
  if (numColors : ℚ) > (rgbList.length : ℚ) / 3 then
    .error (.valueError
      "You cannot really distinguish that many colors! At most 9000 colors")
  else
    match bgColors.getLast? with
    | none => .error .indexError
    | some _ =>
      .ok (selectLoopVariant numColors.toNat (seedMindist bgColors))

/-- `np.deg2rad`: multiply by `π / 180`. -/
noncomputable def deg2rad (theta : ℝ) : ℝ := theta * (Real.pi / 180)

/-- The matrix literal returned by `rotX` (utils.py lines 29-30). -/
noncomputable def rotXMat (theta : ℝ) : Matrix (Fin 3) (Fin 3) ℝ :=
  !![1, 0, 0;
     0, Real.cos theta, -Real.sin theta;
     0, Real.sin theta, Real.cos theta]

/-- The matrix literal returned by `rotY` (utils.py lines 54-55). -/
noncomputable def rotYMat (theta : ℝ) : Matrix (Fin 3) (Fin 3) ℝ :=
  !![Real.cos theta, 0, Real.sin theta;
     0, 1, 0;
     -Real.sin theta, 0, Real.cos theta]

/-- The matrix literal returned by `rotZ` (utils.py lines 79-80). -/
noncomputable def rotZMat (theta : ℝ) : Matrix (Fin 3) (Fin 3) ℝ :=
  !![Real.cos theta, -Real.sin theta, 0;
     Real.sin theta, Real.cos theta, 0;
     0, 0, 1]

/-- `rotX` (utils.py lines 8-30): validate `mode`, convert degrees to
radians if requested, and build the X-axis rotation matrix. -/
noncomputable def rotX (theta : ℝ) (mode : String) :
    Except PyError (Matrix (Fin 3) (Fin 3) ℝ) :=
  if mode ≠ "radians" ∧ mode ≠ "degrees" then
    .error (.valueError "Mode should either be ``radians`` or ``degrees``.")
  else
    let theta' := if mode = "degrees" then deg2rad theta else theta
    .ok (rotXMat theta')

/-- `rotY` (utils.py lines 33-55). -/
noncomputable def rotY (theta : ℝ) (mode : String) :
    Except PyError (Matrix (Fin 3) (Fin 3) ℝ) :=
  if mode ≠ "radians" ∧ mode ≠ "degrees" then
    .error (.valueError "Mode should either be ``radians`` or ``degrees``.")
  else
    let theta' := if mode = "degrees" then deg2rad theta else theta
    .ok (rotYMat theta')

/-- `rotZ` (utils.py lines 58-80). -/
noncomputable def rotZ (theta : ℝ) (mode : String) :
    Except PyError (Matrix (Fin 3) (Fin 3) ℝ) :=
  if mode ≠ "radians" ∧ mode ≠ "degrees" then
    .error (.valueError "Mode should either be ``radians`` or ``degrees``.")
  else
    let theta' := if mode = "degrees" then deg2rad theta else theta
    .ok (rotZMat theta')

/-! ### Basic facts about the candidate grid -/

theorem rgbList_length : rgbList.length = totalGrid := by
  simp [rgbList]

theorem totalGrid_eq : totalGrid = 27000 := by
  norm_num [totalGrid, numGrid]

/-! ### Rotation matrices: algebraic properties -/

theorem rotXMat_transpose (θ : ℝ) :
    (rotXMat θ).transpose =
      !![1, 0, 0;
         0, Real.cos θ, Real.sin θ;
         0, -Real.sin θ, Real.cos θ] := by
  rw [rotXMat, Matrix.eta_fin_three (Matrix.transpose _)]
  simp [Matrix.vecHead, Matrix.vecTail]

theorem rotYMat_transpose (θ : ℝ) :
    (rotYMat θ).transpose =
      !![Real.cos θ, 0, -Real.sin θ;
         0, 1, 0;
         Real.sin θ, 0, Real.cos θ] := by
  rw [rotYMat, Matrix.eta_fin_three (Matrix.transpose _)]
  simp [Matrix.vecHead, Matrix.vecTail]

theorem rotZMat_transpose (θ : ℝ) :
    (rotZMat θ).transpose =
      !![Real.cos θ, Real.sin θ, 0;
         -Real.sin θ, Real.cos θ, 0;
         0, 0, 1] := by
  rw [rotZMat, Matrix.eta_fin_three (Matrix.transpose _)]
  simp [Matrix.vecHead, Matrix.vecTail]

theorem rotXMat_orth (θ : ℝ) :
    (rotXMat θ).transpose * rotXMat θ = 1 ∧ (rotXMat θ).det = 1 := by
  have hsc := Real.sin_sq_add_cos_sq θ
  constructor
  · rw [rotXMat_transpose, rotXMat, Matrix.mul_fin_three, Matrix.one_fin_three]
    ext i j
    fin_cases i <;> fin_cases j <;> simp [Matrix.vecHead, Matrix.vecTail] <;> nlinarith [hsc]
  · rw [rotXMat, Matrix.det_fin_three]
    simp
    nlinarith [hsc]

theorem rotYMat_orth (θ : ℝ) :
    (rotYMat θ).transpose * rotYMat θ = 1 ∧ (rotYMat θ).det = 1 := by
  have hsc := Real.sin_sq_add_cos_sq θ
  constructor
  · rw [rotYMat_transpose, rotYMat, Matrix.mul_fin_three, Matrix.one_fin_three]
    ext i j
    fin_cases i <;> fin_cases j <;> simp [Matrix.vecHead, Matrix.vecTail] <;> nlinarith [hsc]
  · rw [rotYMat, Matrix.det_fin_three]
    simp
    nlinarith [hsc]

theorem rotZMat_orth (θ : ℝ) :
    (rotZMat θ).transpose * rotZMat θ = 1 ∧ (rotZMat θ).det = 1 := by
  have hsc := Real.sin_sq_add_cos_sq θ
  constructor
  · rw [rotZMat_transpose, rotZMat, Matrix.mul_fin_three, Matrix.one_fin_three]
    ext i j
    fin_cases i <;> fin_cases j <;> simp [Matrix.vecHead, Matrix.vecTail] <;> nlinarith [hsc]
  · rw [rotZMat, Matrix.det_fin_three]
    simp
    nlinarith [hsc]

/-- C7: for every `theta` (in either mode) and each of the three axes, the
matrix `R` returned by `rotX`, `rotY`, or `rotZ` satisfies
`transpose R * R = identity` and `det R = 1`, exactly over real
arithmetic. -/
theorem claim_C7_rotation_proper (θ : ℝ) (mode : String)
    (M : Matrix (Fin 3) (Fin 3) ℝ) :
    (rotX θ mode = .ok M → M.transpose * M = 1 ∧ M.det = 1) ∧
    (rotY θ mode = .ok M → M.transpose * M = 1 ∧ M.det = 1) ∧
    (rotZ θ mode = .ok M → M.transpose * M = 1 ∧ M.det = 1) := by
  refine ⟨fun h => ?_, fun h => ?_, fun h => ?_⟩
  · unfold rotX at h
    split at h
    · exact absurd h (by simp)
    · simp only [Except.ok.injEq] at h
      subst h
      exact rotXMat_orth _
  · unfold rotY at h
    split at h
    · exact absurd h (by simp)
    · simp only [Except.ok.injEq] at h
      subst h
      exact rotYMat_orth _
  · unfold rotZ at h
    split at h
    · exact absurd h (by simp)
    · simp only [Except.ok.injEq] at h
      subst h
      exact rotZMat_orth _

/-- Witness for C7 at `theta = 0`, `mode = "radians"`, applied to each of
the three axis builders. -/
theorem claim_C7_witness :
    ((rotXMat 0).transpose * rotXMat 0 = 1 ∧ (rotXMat 0).det = 1) ∧
    ((rotYMat 0).transpose * rotYMat 0 = 1 ∧ (rotYMat 0).det = 1) ∧
    ((rotZMat 0).transpose * rotZMat 0 = 1 ∧ (rotZMat 0).det = 1) :=
  ⟨(claim_C7_rotation_proper 0 "radians" (rotXMat 0)).1 rfl,
   (claim_C7_rotation_proper 0 "radians" (rotYMat 0)).2.1 rfl,
   (claim_C7_rotation_proper 0 "radians" (rotZMat 0)).2.2 rfl⟩

/-- C8: for every real `d` and each of the three axes, calling the builder
with `theta = d`, `mode = "degrees"` returns the same matrix as calling it
with `theta = d * pi / 180`, `mode = "radians"` (the functions are pure, so
the conversion is local to the call). -/
theorem claim_C8_degrees_eq_radians (d : ℝ) :
    rotX d "degrees" = rotX (d * Real.pi / 180) "radians" ∧
    rotY d "degrees" = rotY (d * Real.pi / 180) "radians" ∧
    rotZ d "degrees" = rotZ (d * Real.pi / 180) "radians" := by
  have h : deg2rad d = d * Real.pi / 180 := by
    unfold deg2rad
    ring
  refine ⟨?_, ?_, ?_⟩
  · have h1 : rotX d "degrees" = .ok (rotXMat (deg2rad d)) := rfl
    have h2 : rotX (d * Real.pi / 180) "radians" =
        .ok (rotXMat (d * Real.pi / 180)) := rfl
    rw [h1, h2, h]
  · have h1 : rotY d "degrees" = .ok (rotYMat (deg2rad d)) := rfl
    have h2 : rotY (d * Real.pi / 180) "radians" =
        .ok (rotYMat (d * Real.pi / 180)) := rfl
    rw [h1, h2, h]
  · have h1 : rotZ d "degrees" = .ok (rotZMat (deg2rad d)) := rfl
    have h2 : rotZ (d * Real.pi / 180) "radians" =
        .ok (rotZMat (d * Real.pi / 180)) := rfl
    rw [h1, h2, h]

/-- C9: for each rotation builder, the call fails (with the `ValueError`
carrying the mode message) exactly when `mode` is neither of the literals
`"radians"` and `"degrees"`; the mode check is the only error path. -/
theorem claim_C9_mode_check (θ : ℝ) (mode : String) :
    ((mode ≠ "radians" ∧ mode ≠ "degrees") ↔
      rotX θ mode =
        .error (.valueError "Mode should either be ``radians`` or ``degrees``.")) ∧
    ((mode ≠ "radians" ∧ mode ≠ "degrees") ↔
      rotY θ mode =
        .error (.valueError "Mode should either be ``radians`` or ``degrees``.")) ∧
    ((mode ≠ "radians" ∧ mode ≠ "degrees") ↔
      rotZ θ mode =
        .error (.valueError "Mode should either be ``radians`` or ``degrees``.")) := by
  refine ⟨?_, ?_, ?_⟩ <;> constructor
  · intro h
    unfold rotX
    rw [if_pos h]
  · intro h
    by_contra hcon
    unfold rotX at h
    rw [if_neg hcon] at h
    simp at h
  · intro h
    unfold rotY
    rw [if_pos h]
  · intro h
    by_contra hcon
    unfold rotY at h
    rw [if_neg hcon] at h
    simp at h
  · intro h
    unfold rotZ
    rw [if_pos h]
  · intro h
    by_contra hcon
    unfold rotZ at h
    rw [if_neg hcon] at h
    simp at h

/-! ### Length and indexing facts for the accumulator lists -/

theorem mindistInit_length : mindistInit.length = totalGrid := by
  simp [mindistInit, rgbList_length]

theorem seedStep_length (l : List (WithTop ℚ)) (c : Color) :
    (seedStep l c).length = min l.length totalGrid := by
  simp [seedStep, List.length_zipWith, rgbList_length]

theorem updateStep_length (c : Color) (l : List (WithTop ℚ)) :
    (updateStep c l).length = min l.length totalGrid := by
  simp [updateStep, List.length_zipWith, rgbList_length]

theorem seedFold_length (bgs : List Color) :
    ∀ (acc : List (WithTop ℚ)), acc.length = totalGrid →
      (bgs.foldl seedStep acc).length = totalGrid := by
  induction bgs with
  | nil => intro acc h; simpa using h
  | cons c bgs ih =>
    intro acc h
    rw [List.foldl_cons]
    exact ih _ (by rw [seedStep_length, h]; simp)

theorem seedMindist_length (bgs : List Color) :
    (seedMindist bgs).length = totalGrid :=
  seedFold_length bgs mindistInit mindistInit_length

theorem rgbList_getElem? (m : ℕ) (hm : m < totalGrid) :
    rgbList[m]? = some (rgbAt m) := by
  simp only [rgbList, List.getElem?_map, List.getElem?_range hm, Option.map_some']

theorem rgbList_getElem (m : ℕ) (hm : m < totalGrid) (h : m < rgbList.length) :
    rgbList[m] = rgbAt m := by
  have h2 := rgbList_getElem? m hm
  rw [List.getElem?_eq_getElem h] at h2
  exact Option.some.inj h2

theorem rgbList_getD (m : ℕ) (hm : m < totalGrid) :
    rgbList.getD m ((0 : ℚ), (0 : ℚ), (0 : ℚ)) = rgbAt m := by
  rw [List.getD_eq_getElem?_getD, rgbList_getElem? m hm, Option.getD_some]

theorem mindistInit_getD (m : ℕ) (hm : m < totalGrid) :
    mindistInit.getD m ⊤ = ⊤ := by
  rw [List.getD_eq_getElem?_getD, mindistInit, List.getElem?_replicate,
    if_pos (by rwa [rgbList_length]), Option.getD_some]

theorem zipWithMin_getD (f : Color → ℚ) (l : List (WithTop ℚ)) (m : ℕ)
    (hm : m < totalGrid) (hl : l.length = totalGrid) :
    (List.zipWith (fun d p => min d ((f p : ℚ) : WithTop ℚ)) l rgbList).getD m ⊤ =
      min (l.getD m ⊤) ((f (rgbAt m) : ℚ) : WithTop ℚ) := by
  have h2 : m < l.length := by rwa [hl]
  have hld : l.getD m ⊤ = l[m] := by
    rw [List.getD_eq_getElem?_getD, List.getElem?_eq_getElem h2, Option.getD_some]
  have hz : (List.zipWith (fun d p => min d ((f p : ℚ) : WithTop ℚ)) l rgbList)[m]? =
      some (min (l.getD m ⊤) ((f (rgbAt m) : ℚ) : WithTop ℚ)) := by
    rw [List.getElem?_zipWith_eq_some]
    refine ⟨l[m], rgbAt m, ?_, ?_, ?_⟩
    · rw [List.getElem?_eq_getElem h2]
    · exact rgbList_getElem? m hm
    · rw [hld]
  rw [List.getD_eq_getElem?_getD, hz, Option.getD_some]

theorem seedStep_getD (l : List (WithTop ℚ)) (c : Color) (m : ℕ)
    (hm : m < totalGrid) (hl : l.length = totalGrid) :
    (seedStep l c).getD m ⊤ =
      min (l.getD m ⊤) ((dist1 (rgbAt m) (truncColor c) : ℚ) : WithTop ℚ) := by
  simp only [seedStep]
  exact zipWithMin_getD (fun p => dist1 p (truncColor c)) l m hm hl

theorem updateStep_getD (c : Color) (l : List (WithTop ℚ)) (m : ℕ)
    (hm : m < totalGrid) (hl : l.length = totalGrid) :
    (updateStep c l).getD m ⊤ =
      min (l.getD m ⊤) ((dist1 (rgbAt m) c : ℚ) : WithTop ℚ) := by
  simp only [updateStep]
  exact zipWithMin_getD (fun p => dist1 p c) l m hm hl

/-- Pointwise value of the seeded accumulator at candidate `p`: the running
minimum, over the processed background colors, of the L1 distances to their
truncated versions, started from `+inf`. -/
def seedValAt (p : Color) (bgs : List Color) : WithTop ℚ :=
  bgs.foldl (fun d c => min d ((dist1 p (truncColor c) : ℚ) : WithTop ℚ)) ⊤

theorem seedFold_getD (bgs : List Color) :
    ∀ (acc : List (WithTop ℚ)), acc.length = totalGrid →
      ∀ (m : ℕ), m < totalGrid →
        (bgs.foldl seedStep acc).getD m ⊤ =
          bgs.foldl
            (fun d c => min d ((dist1 (rgbAt m) (truncColor c) : ℚ) : WithTop ℚ))
            (acc.getD m ⊤) := by
  induction bgs with
  | nil => intro acc _ m _; simp
  | cons c bgs ih =>
    intro acc hacc m hm
    rw [List.foldl_cons, List.foldl_cons,
      ih _ (by rw [seedStep_length, hacc]; simp) m hm, seedStep_getD _ _ _ hm hacc]

theorem seedMindist_getD (bgs : List Color) (m : ℕ) (hm : m < totalGrid) :
    (seedMindist bgs).getD m ⊤ = seedValAt (rgbAt m) bgs := by
  simp only [seedMindist, seedValAt]
  rw [seedFold_getD bgs mindistInit mindistInit_length m hm, mindistInit_getD m hm]

/-! ### Properties of `npArgmax` -/

theorem npArgmaxGo_const (ds : List (WithTop ℚ)) :
    ∀ (i b : ℕ) (v : WithTop ℚ), (∀ y ∈ ds, y ≤ v) → npArgmaxGo ds i b v = b := by
  induction ds with
  | nil => intro i b v _; rfl
  | cons d ds ih =>
    intro i b v h
    rw [npArgmaxGo, if_neg (not_lt.mpr (h d (List.mem_cons_self d ds)))]
    exact ih _ _ _ fun y hy => h y (List.mem_cons_of_mem _ hy)

theorem npArgmaxGo_target (ds : List (WithTop ℚ)) :
    ∀ (t : ℕ) (ht : t < ds.length) (i b : ℕ) (v : WithTop ℚ),
      v < ds[t] →
      (∀ (j : ℕ) (hj : j < ds.length), j < t → ds[j] < ds[t]) →
      (∀ (j : ℕ) (hj : j < ds.length), t < j → ds[j] ≤ ds[t]) →
      npArgmaxGo ds i b v = i + t := by
  induction ds with
  | nil => intro t ht; exact absurd ht (by simp)
  | cons d ds ih =>
    intro t ht i b v hv hbef haft
    cases t with
    | zero =>
      rw [List.getElem_cons_zero] at hv
      have hle : ∀ y ∈ ds, y ≤ d := by
        intro y hy
        obtain ⟨j, hj, rfl⟩ := List.mem_iff_getElem.mp hy
        have := haft (j + 1) (by simpa using Nat.succ_lt_succ hj) (Nat.succ_pos j)
        simpa using this
      rw [npArgmaxGo, if_pos hv, npArgmaxGo_const ds (i + 1) i d hle]
      omega
    | succ t' =>
      have ht' : t' < ds.length := by simpa using Nat.lt_of_succ_lt_succ ht
      have hshift : (d :: ds)[t' + 1] = ds[t'] := List.getElem_cons_succ d ds t' _
      by_cases hvd : v < d
      · rw [npArgmaxGo, if_pos hvd]
        have hd : d < ds[t'] := by
          have := hbef 0 (by simp) (Nat.succ_pos t')
          rwa [List.getElem_cons_zero, hshift] at this
        rw [ih t' ht' (i + 1) i d hd
          (fun j hj hjt => by
            have := hbef (j + 1) (by simpa using Nat.succ_lt_succ hj)
              (Nat.succ_lt_succ hjt)
            rwa [List.getElem_cons_succ, hshift] at this)
          (fun j hj hjt => by
            have := haft (j + 1) (by simpa using Nat.succ_lt_succ hj)
              (Nat.succ_lt_succ hjt)
            rwa [List.getElem_cons_succ, hshift] at this)]
        omega
      · rw [npArgmaxGo, if_neg hvd]
        have hv' : v < ds[t'] := by rwa [hshift] at hv
        rw [ih t' ht' (i + 1) b v hv'
          (fun j hj hjt => by
            have := hbef (j + 1) (by simpa using Nat.succ_lt_succ hj)
              (Nat.succ_lt_succ hjt)
            rwa [List.getElem_cons_succ, hshift] at this)
          (fun j hj hjt => by
            have := haft (j + 1) (by simpa using Nat.succ_lt_succ hj)
              (Nat.succ_lt_succ hjt)
            rwa [List.getElem_cons_succ, hshift] at this)]
        omega

/-- `npArgmax` returns `t` whenever `l[t]` is the first occurrence of the
maximum of `l`: strictly above everything before it, at least everything
after it. -/
theorem npArgmax_eq_first_max (l : List (WithTop ℚ)) (t : ℕ) (ht : t < l.length)
    (hbef : ∀ (j : ℕ) (hj : j < l.length), j < t → l[j] < l[t])
    (hmax : ∀ (j : ℕ) (hj : j < l.length), l[j] ≤ l[t]) :
    npArgmax l = t := by
  cases l with
  | nil => exact absurd ht (by simp)
  | cons d ds =>
    cases t with
    | zero =>
      have hle : ∀ y ∈ ds, y ≤ d := by
        intro y hy
        obtain ⟨j, hj, rfl⟩ := List.mem_iff_getElem.mp hy
        have := hmax (j + 1) (by simpa using Nat.succ_lt_succ hj)
        simpa using this
      rw [npArgmax, npArgmaxGo_const ds 1 0 d hle]
    | succ t' =>
      have ht' : t' < ds.length := by simpa using Nat.lt_of_succ_lt_succ ht
      have hshift : (d :: ds)[t' + 1] = ds[t'] := List.getElem_cons_succ d ds t' _
      rw [npArgmax, npArgmaxGo_target ds t' ht' 1 0 d
        (by
          have := hbef 0 (by simp) (Nat.succ_pos t')
          rwa [List.getElem_cons_zero, hshift] at this)
        (fun j hj hjt => by
          have := hbef (j + 1) (by simpa using Nat.succ_lt_succ hj)
            (Nat.succ_lt_succ hjt)
          rwa [List.getElem_cons_succ, hshift] at this)
        (fun j hj hjt => by
          have := hmax (j + 1) (by simpa using Nat.succ_lt_succ hj)
          rwa [List.getElem_cons_succ, hshift] at this)]
      omega

theorem npArgmaxGo_lt (ds : List (WithTop ℚ)) :
    ∀ (i b : ℕ) (v : WithTop ℚ), b < i → npArgmaxGo ds i b v < i + ds.length := by
  induction ds with
  | nil => intro i b v h; simpa [npArgmaxGo] using h
  | cons d ds ih =>
    intro i b v h
    rw [npArgmaxGo]
    split
    · have := ih (i + 1) i d (Nat.lt_succ_self i)
      simpa [Nat.add_assoc, Nat.add_comm 1 ds.length] using this
    · have := ih (i + 1) b v (Nat.lt_succ_of_lt h)
      simpa [Nat.add_assoc, Nat.add_comm 1 ds.length] using this

theorem npArgmax_lt_length (l : List (WithTop ℚ)) (h : l ≠ []) :
    npArgmax l < l.length := by
  cases l with
  | nil => exact absurd rfl h
  | cons d ds =>
    rw [npArgmax]
    have := npArgmaxGo_lt ds 1 0 d Nat.one_pos
    simpa [Nat.add_comm 1 ds.length] using this

/-! ### Grid values and candidate channels -/

theorem gridVal_eq (t : ℕ) : gridVal t = (t : ℚ) / 29 := by
  rw [gridVal, Rat.mkRat_eq_div]
  norm_num [numGrid]

theorem gridVal_nonneg (t : ℕ) : 0 ≤ gridVal t := by
  rw [gridVal_eq]
  positivity

theorem gridVal_le_one (t : ℕ) (h : t ≤ 29) : gridVal t ≤ 1 := by
  rw [gridVal_eq, div_le_one (by norm_num)]
  exact_mod_cast h

theorem gridVal_lt_one (t : ℕ) (h : t < 29) : gridVal t < 1 := by
  rw [gridVal_eq, div_lt_one (by norm_num)]
  exact_mod_cast h

theorem rgbAt_mem_rgbList (m : ℕ) (hm : m < totalGrid) : rgbAt m ∈ rgbList :=
  List.mem_map.mpr ⟨m, List.mem_range.mpr hm, rfl⟩

theorem rgbList_channels (c : Color) (hc : c ∈ rgbList) :
    0 ≤ c.1 ∧ c.1 ≤ 1 ∧ 0 ≤ c.2.1 ∧ c.2.1 ≤ 1 ∧ 0 ≤ c.2.2 ∧ c.2.2 ≤ 1 := by
  obtain ⟨m, hm, rfl⟩ := List.mem_map.mp hc
  have hm' : m < totalGrid := List.mem_range.mp hm
  have h1 : (m / numGrid) % numGrid ≤ 29 := by
    have := Nat.mod_lt (m / numGrid) (show 0 < numGrid by norm_num [numGrid])
    simp only [numGrid] at this ⊢
    omega
  have h2 : m % numGrid ≤ 29 := by
    have := Nat.mod_lt m (show 0 < numGrid by norm_num [numGrid])
    simp only [numGrid] at this ⊢
    omega
  have h3 : m / (numGrid * numGrid) ≤ 29 := by
    rw [totalGrid_eq] at hm'
    simp only [numGrid]
    omega
  exact ⟨gridVal_nonneg _, gridVal_le_one _ h1, gridVal_nonneg _,
    gridVal_le_one _ h2, gridVal_nonneg _, gridVal_le_one _ h3⟩

/-! ### Reducing `getDistinguishableColors` on valid and invalid inputs -/

theorem gdcBound_iff (n : ℤ) :
    ((n : ℚ) > (rgbList.length : ℚ) / 3) ↔ 9000 < n := by
  rw [rgbList_length, totalGrid_eq]
  have h : ((27000 : ℕ) : ℚ) / 3 = 9000 := by norm_num
  rw [h, gt_iff_lt]
  constructor <;> intro hx <;> exact_mod_cast hx

theorem getDC_ok (n : ℤ) (bg : List Color) (hn : n ≤ 9000) (h : bg ≠ []) :
    getDistinguishableColors n bg =
      .ok (selectLoop n.toNat (bg.getLast h) (seedMindist bg)) := by
  unfold getDistinguishableColors
  rw [if_neg (fun hc => absurd (gdcBound_iff n |>.mp hc) (by omega)),
    List.getLast?_eq_getLast bg h]

theorem getDC_emptyBg (n : ℤ) (hn : n ≤ 9000) :
    getDistinguishableColors n [] = .error PyError.indexError := by
  unfold getDistinguishableColors
  rw [if_neg (fun hc => absurd (gdcBound_iff n |>.mp hc) (by omega))]
  rfl

theorem selectLoop_length (n : ℕ) :
    ∀ (c : Color) (l : List (WithTop ℚ)), (selectLoop n c l).length = n := by
  induction n with
  | zero => intro c l; rfl
  | succ n ih =>
    intro c l
    simp only [selectLoop, List.length_cons, ih]

theorem selectLoop_mem (n : ℕ) :
    ∀ (c : Color) (l : List (WithTop ℚ)), l.length = totalGrid →
      ∀ x ∈ selectLoop n c l, x ∈ rgbList := by
  induction n with
  | zero => intro c l _ x hx; simp [selectLoop] at hx
  | succ n ih =>
    intro c l hl x hx
    simp only [selectLoop] at hx
    have hl2 : (updateStep c l).length = totalGrid := by
      rw [updateStep_length, hl]
      simp
    have hne : updateStep c l ≠ [] := by
      intro hemp
      rw [hemp] at hl2
      rw [totalGrid_eq] at hl2
      simp at hl2
    have hidx : npArgmax (updateStep c l) < totalGrid := by
      have := npArgmax_lt_length _ hne
      rwa [hl2] at this
    rcases List.mem_cons.mp hx with hx1 | hx1
    · rw [hx1, rgbList_getD _ hidx]
      exact rgbAt_mem_rgbList _ hidx
    · exact ih _ _ hl2 x hx1

/-- C1: for every integer `numColors` with `1 ≤ numColors ≤ 9000` and every
non-empty `bgColors` list, `getDistinguishableColors` returns (in selection
order) a list of exactly `numColors` RGB triples, each drawn from the
30x30x30 candidate grid `rgbList`, hence with every channel in [0,1]. -/
theorem claim_C1_grid_output (n : ℤ) (bg : List Color)
    (h1 : 1 ≤ n) (h2 : n ≤ 9000) (h3 : bg ≠ []) :
    ∃ colors, getDistinguishableColors n bg = .ok colors ∧
      (colors.length : ℤ) = n ∧
      (∀ c ∈ colors, c ∈ rgbList) ∧
      (∀ c ∈ colors,
        0 ≤ c.1 ∧ c.1 ≤ 1 ∧ 0 ≤ c.2.1 ∧ c.2.1 ≤ 1 ∧ 0 ≤ c.2.2 ∧ c.2.2 ≤ 1) := by
  refine ⟨_, getDC_ok n bg h2 h3, ?_, ?_, ?_⟩
  · rw [selectLoop_length]
    exact Int.toNat_of_nonneg (by omega)
  · exact selectLoop_mem _ _ _ (seedMindist_length bg)
  · intro c hc
    exact rgbList_channels c (selectLoop_mem _ _ _ (seedMindist_length bg) c hc)

/-- Witness for C1 at `numColors = 1`, `bgColors = [(1,1,1)]`. -/
theorem claim_C1_witness :
    ((1 : ℤ) ≤ 1 ∧ (1 : ℤ) ≤ 9000 ∧ ([((1 : ℚ), (1 : ℚ), (1 : ℚ))] : List Color) ≠ []) ∧
    (∃ colors,
      getDistinguishableColors 1 [((1 : ℚ), (1 : ℚ), (1 : ℚ))] = .ok colors ∧
      (colors.length : ℤ) = 1 ∧
      (∀ c ∈ colors, c ∈ rgbList) ∧
      (∀ c ∈ colors,
        0 ≤ c.1 ∧ c.1 ≤ 1 ∧ 0 ≤ c.2.1 ∧ c.2.1 ≤ 1 ∧ 0 ≤ c.2.2 ∧ c.2.2 ≤ 1)) :=
  ⟨⟨by decide, by decide, by simp⟩,
    claim_C1_grid_output 1 [((1 : ℚ), (1 : ℚ), (1 : ℚ))] (by decide) (by decide)
      (by simp)⟩

/-- C2: `getDistinguishableColors` fails with the `ValueError` bound error
exactly when `numColors` exceeds one third of the candidate grid size,
i.e. exceeds 9000 (so 9001 fails, 9000 does not fail on this check, for
any `bgColors`). -/
theorem claim_C2_bound_error_iff (n : ℤ) (bg : List Color) :
    (∃ msg, getDistinguishableColors n bg = .error (PyError.valueError msg)) ↔
      9000 < n := by
  constructor
  · rintro ⟨msg, h⟩
    by_contra hcon
    push_neg at hcon
    unfold getDistinguishableColors at h
    rw [if_neg (fun hc => absurd (gdcBound_iff n |>.mp hc) (by omega))] at h
    cases hlast : bg.getLast? with
    | none => rw [hlast] at h; simp at h
    | some c => rw [hlast] at h; simp at h
  · intro h
    unfold getDistinguishableColors
    rw [if_pos (gdcBound_iff n |>.mpr h)]
    exact ⟨_, rfl⟩

/-- C10: calling `getDistinguishableColors` with a non-positive
`numColors` and non-empty `bgColors` raises no error and returns the
empty list (the positivity of `numColors` is never validated, only the
upper bound is). -/
theorem claim_C10_nonpositive_ok (n : ℤ) (bg : List Color)
    (h1 : n ≤ 0) (h3 : bg ≠ []) :
    getDistinguishableColors n bg = .ok [] := by
  rw [getDC_ok n bg (by omega) h3, Int.toNat_of_nonpos h1]
  rfl

/-- Witness for C10 at `numColors = 0`, `bgColors = [(1,1,1)]`. -/
theorem claim_C10_witness :
    ((0 : ℤ) ≤ 0 ∧ ([((1 : ℚ), (1 : ℚ), (1 : ℚ))] : List Color) ≠ []) ∧
    getDistinguishableColors 0 [((1 : ℚ), (1 : ℚ), (1 : ℚ))] = .ok [] :=
  ⟨⟨by decide, by simp⟩,
    claim_C10_nonpositive_ok 0 [((1 : ℚ), (1 : ℚ), (1 : ℚ))] (by decide) (by simp)⟩

/-- C5 counterexample: on empty `bgColors` (with `numColors = 1`) the
function fails with `IndexError` (from `bgColors[-1]`), which is not the
`ValueError`/InvalidArgument error the claim asserts. -/
theorem claim_C5_counterexample :
    getDistinguishableColors 1 [] = .error PyError.indexError ∧
    ¬ ∃ msg, getDistinguishableColors 1 [] = .error (PyError.valueError msg) := by
  have h := getDC_emptyBg 1 (by decide)
  refine ⟨h, ?_⟩
  rintro ⟨msg, hmsg⟩
  rw [h] at hmsg
  simp at hmsg

/-- C5 amended: with empty `bgColors` and `numColors` within the bound,
`getDistinguishableColors` fails, but with an `IndexError` from
`bgColors[-1]`, not with an InvalidArgument/`ValueError`. -/
theorem claim_C5_empty_bg_index_error (n : ℤ) (hn : n ≤ 9000) :
    getDistinguishableColors n [] = .error PyError.indexError :=
  getDC_emptyBg n hn

/-- Witness for the amended C5 at `numColors = 1`. -/
theorem claim_C5_witness :
    (1 : ℤ) ≤ 9000 ∧ getDistinguishableColors 1 [] = .error PyError.indexError :=
  ⟨by decide, claim_C5_empty_bg_index_error 1 (by decide)⟩

/-! ### Helpers for pointwise accumulator reasoning -/

theorem getDTop_eq (l : List (WithTop ℚ)) (j : ℕ) (hj : j < l.length) :
    l.getD j ⊤ = l[j] := by
  rw [List.getD_eq_getElem?_getD, List.getElem?_eq_getElem hj, Option.getD_some]

theorem seedValAt_singleton (p c : Color) :
    seedValAt p [c] = ((dist1 p (truncColor c) : ℚ) : WithTop ℚ) := by
  simp [seedValAt]

theorem foldlMin_le_init (f : Color → WithTop ℚ) (l : List Color) :
    ∀ (a : WithTop ℚ), l.foldl (fun d c => min d (f c)) a ≤ a := by
  induction l with
  | nil => intro a; simp
  | cons x l ih =>
    intro a
    rw [List.foldl_cons]
    exact le_trans (ih _) (min_le_left _ _)

theorem foldlMin_le_mem (f : Color → WithTop ℚ) (l : List Color) (c : Color)
    (hc : c ∈ l) : ∀ (a : WithTop ℚ), l.foldl (fun d x => min d (f x)) a ≤ f c := by
  induction l with
  | nil => exact absurd hc (by simp)
  | cons x l ih =>
    intro a
    rw [List.foldl_cons]
    rcases List.mem_cons.mp hc with h | h
    · subst h
      exact le_trans (foldlMin_le_init f l _) (min_le_right _ _)
    · exact ih h _

theorem seedValAt_le (p : Color) (bgs : List Color) (c : Color) (hc : c ∈ bgs) :
    seedValAt p bgs ≤ ((dist1 p (truncColor c) : ℚ) : WithTop ℚ) :=
  foldlMin_le_mem (fun x => ((dist1 p (truncColor x) : ℚ) : WithTop ℚ)) bgs c hc ⊤

theorem getDCVariant_ok (n : ℤ) (bg : List Color) (hn : n ≤ 9000) (h : bg ≠ []) :
    getDistinguishableColorsVariant n bg =
      .ok (selectLoopVariant n.toNat (seedMindist bg)) := by
  unfold getDistinguishableColorsVariant
  rw [if_neg (fun hc => absurd (gdcBound_iff n |>.mp hc) (by omega)),
    List.getLast?_eq_getLast bg h]

/-! ### Concrete distance facts -/

theorem dist1_whiteBound (p : Color)
    (h : 0 ≤ p.1 ∧ p.1 ≤ 1 ∧ 0 ≤ p.2.1 ∧ p.2.1 ≤ 1 ∧ 0 ≤ p.2.2 ∧ p.2.2 ≤ 1) :
    dist1 p ((1 : ℚ), (1 : ℚ), (1 : ℚ)) ≤ 3 := by
  obtain ⟨h1, h2, h3, h4, h5, h6⟩ := h
  rw [dist1]
  rcases abs_cases (p.1 - 1) with ⟨ha, _⟩ | ⟨ha, _⟩ <;>
    rcases abs_cases (p.2.1 - 1) with ⟨hb, _⟩ | ⟨hb, _⟩ <;>
    rcases abs_cases (p.2.2 - 1) with ⟨hc, _⟩ | ⟨hc, _⟩ <;>
    rw [ha, hb, hc] <;> linarith

theorem dist1_halfBound (p : Color)
    (h : 0 ≤ p.1 ∧ p.1 ≤ 1 ∧ 0 ≤ p.2.1 ∧ p.2.1 ≤ 1 ∧ 0 ≤ p.2.2 ∧ p.2.2 ≤ 1) :
    dist1 p ((1 : ℚ) / 2, (1 : ℚ) / 2, (1 : ℚ) / 2) ≤ 3 / 2 := by
  obtain ⟨h1, h2, h3, h4, h5, h6⟩ := h
  rw [dist1]
  rcases abs_cases (p.1 - 1 / 2) with ⟨ha, _⟩ | ⟨ha, _⟩ <;>
    rcases abs_cases (p.2.1 - 1 / 2) with ⟨hb, _⟩ | ⟨hb, _⟩ <;>
    rcases abs_cases (p.2.2 - 1 / 2) with ⟨hc, _⟩ | ⟨hc, _⟩ <;>
    rw [ha, hb, hc] <;> linarith

theorem half_eq_mkRat : (1 / 2 : ℚ) = mkRat 1 2 := by norm_num [mkRat]

theorem truncQ_half : truncQ (1 / 2 : ℚ) = 0 := by
  rw [half_eq_mkRat]
  decide

theorem truncColor_half :
    truncColor ((1 : ℚ) / 2, (1 : ℚ) / 2, (1 : ℚ) / 2) = ((0 : ℚ), (0 : ℚ), (0 : ℚ)) := by
  show (truncQ ((1 : ℚ) / 2), truncQ ((1 : ℚ) / 2), truncQ ((1 : ℚ) / 2)) =
    ((0 : ℚ), (0 : ℚ), (0 : ℚ))
  rw [truncQ_half]

theorem truncColor_white :
    truncColor ((1 : ℚ), (1 : ℚ), (1 : ℚ)) = ((1 : ℚ), (1 : ℚ), (1 : ℚ)) := by
  decide

theorem rgbAt_zero : rgbAt 0 = ((0 : ℚ), (0 : ℚ), (0 : ℚ)) := by decide

theorem rgbAt_899 : rgbAt 899 = ((1 : ℚ), (1 : ℚ), (0 : ℚ)) := by decide

theorem rgbAt_26999 : rgbAt 26999 = ((1 : ℚ), (1 : ℚ), (1 : ℚ)) := by decide

/-! ### C6: selecting one color against a white background -/

theorem updateWhite_getD (j : ℕ) (hj : j < totalGrid) :
    (updateStep ((1 : ℚ), (1 : ℚ), (1 : ℚ))
        (seedMindist [((1 : ℚ), (1 : ℚ), (1 : ℚ))])).getD j ⊤ =
      ((dist1 (rgbAt j) ((1 : ℚ), (1 : ℚ), (1 : ℚ)) : ℚ) : WithTop ℚ) := by
  rw [updateStep_getD _ _ j hj (seedMindist_length _), seedMindist_getD _ j hj,
    seedValAt_singleton, truncColor_white]
  exact min_self _

theorem dist1_zero_white :
    dist1 ((0 : ℚ), (0 : ℚ), (0 : ℚ)) ((1 : ℚ), (1 : ℚ), (1 : ℚ)) = 3 := by
  rw [dist1]
  norm_num

/-- C6: `getDistinguishableColors 1 [(1,1,1)]` returns exactly one color,
namely `(0,0,0)`, whose L1 distance to white `(1,1,1)` is exactly 3 (the
maximum possible). -/
theorem claim_C6_one_color_far_from_white :
    getDistinguishableColors 1 [((1 : ℚ), (1 : ℚ), (1 : ℚ))] =
      .ok [((0 : ℚ), (0 : ℚ), (0 : ℚ))] ∧
    dist1 ((0 : ℚ), (0 : ℚ), (0 : ℚ)) ((1 : ℚ), (1 : ℚ), (1 : ℚ)) = 3 := by
  have hbg : ([((1 : ℚ), (1 : ℚ), (1 : ℚ))] : List Color) ≠ [] := by simp
  have htot : (0 : ℕ) < totalGrid := by norm_num [totalGrid, numGrid]
  have hlen : (updateStep ((1 : ℚ), (1 : ℚ), (1 : ℚ))
      (seedMindist [((1 : ℚ), (1 : ℚ), (1 : ℚ))])).length = totalGrid := by
    rw [updateStep_length, seedMindist_length]
    simp
  have hdist0 : dist1 (rgbAt 0) ((1 : ℚ), (1 : ℚ), (1 : ℚ)) = 3 := by
    rw [rgbAt_zero]
    exact dist1_zero_white
  have hargmax : npArgmax (updateStep ((1 : ℚ), (1 : ℚ), (1 : ℚ))
      (seedMindist [((1 : ℚ), (1 : ℚ), (1 : ℚ))])) = 0 := by
    apply npArgmax_eq_first_max _ 0 (by rw [hlen]; exact htot)
    · intro j hj hj0
      omega
    · intro j hj
      have hjt : j < totalGrid := by rwa [hlen] at hj
      rw [← getDTop_eq _ j hj, ← getDTop_eq _ 0 (by rw [hlen]; exact htot),
        updateWhite_getD j hjt, updateWhite_getD 0 htot, hdist0]
      exact_mod_cast dist1_whiteBound (rgbAt j)
        (rgbList_channels _ (rgbAt_mem_rgbList j hjt))
  refine ⟨?_, dist1_zero_white⟩
  rw [getDC_ok 1 _ (by decide) hbg]
  show Except.ok
      (selectLoop 1 ((1 : ℚ), (1 : ℚ), (1 : ℚ))
        (seedMindist [((1 : ℚ), (1 : ℚ), (1 : ℚ))])) =
    Except.ok [((0 : ℚ), (0 : ℚ), (0 : ℚ))]
  simp only [selectLoop]
  rw [hargmax, rgbList_getD 0 htot, rgbAt_zero]

/-! ### C3 and C4: the half-gray background -/

theorem dist1_mk (x y z u v w : ℚ) :
    dist1 (x, y, z) (u, v, w) = |x - u| + |y - v| + |z - w| := rfl

theorem gridVal_zero : gridVal 0 = 0 := by decide

theorem rgbAt_fst (j : ℕ) : (rgbAt j).1 = gridVal ((j / numGrid) % numGrid) := rfl

theorem rgbAt_snd (j : ℕ) : (rgbAt j).2.1 = gridVal (j % numGrid) := rfl

theorem rgbAt_thd (j : ℕ) :
    (rgbAt j).2.2 = gridVal (j / (numGrid * numGrid)) := rfl

theorem dist1_zero_eq (p : Color) (h0 : 0 ≤ p.1) (h1 : 0 ≤ p.2.1)
    (h2 : 0 ≤ p.2.2) :
    dist1 p ((0 : ℚ), (0 : ℚ), (0 : ℚ)) = p.1 + p.2.1 + p.2.2 := by
  show |p.1 - 0| + |p.2.1 - 0| + |p.2.2 - 0| = _
  rw [sub_zero, sub_zero, sub_zero, abs_of_nonneg h0, abs_of_nonneg h1,
    abs_of_nonneg h2]

theorem seedHalf_getD (j : ℕ) (hj : j < totalGrid) :
    (seedMindist [((1 : ℚ) / 2, (1 : ℚ) / 2, (1 : ℚ) / 2)]).getD j ⊤ =
      ((dist1 (rgbAt j) ((0 : ℚ), (0 : ℚ), (0 : ℚ)) : ℚ) : WithTop ℚ) := by
  rw [seedMindist_getD _ j hj, seedValAt_singleton, truncColor_half]

theorem dist1_26999_zero :
    dist1 (rgbAt 26999) ((0 : ℚ), (0 : ℚ), (0 : ℚ)) = 3 := by
  rw [rgbAt_26999, dist1_mk]
  norm_num

theorem sumChannels_le_three (j : ℕ) (hj : j < totalGrid) :
    dist1 (rgbAt j) ((0 : ℚ), (0 : ℚ), (0 : ℚ)) ≤ 3 := by
  obtain ⟨c1, _, c3, _, c5, _⟩ :=
    rgbList_channels (rgbAt j) (rgbAt_mem_rgbList j hj)
  obtain ⟨_, c2, _, c4, _, c6⟩ :=
    rgbList_channels (rgbAt j) (rgbAt_mem_rgbList j hj)
  rw [dist1_zero_eq _ c1 c3 c5]
  linarith

theorem sumChannels_lt_three (j : ℕ) (hj : j < 26999) :
    dist1 (rgbAt j) ((0 : ℚ), (0 : ℚ), (0 : ℚ)) < 3 := by
  have hia : (j / numGrid) % numGrid ≤ 29 := by simp only [numGrid]; omega
  have hja : j % numGrid ≤ 29 := by simp only [numGrid]; omega
  have hka : j / (numGrid * numGrid) ≤ 29 := by simp only [numGrid]; omega
  have hcase : (j / numGrid) % numGrid < 29 ∨ j % numGrid < 29 ∨
      j / (numGrid * numGrid) < 29 := by
    simp only [numGrid]
    omega
  have hn1 : 0 ≤ (rgbAt j).1 := by rw [rgbAt_fst]; exact gridVal_nonneg _
  have hn2 : 0 ≤ (rgbAt j).2.1 := by rw [rgbAt_snd]; exact gridVal_nonneg _
  have hn3 : 0 ≤ (rgbAt j).2.2 := by rw [rgbAt_thd]; exact gridVal_nonneg _
  rw [dist1_zero_eq _ hn1 hn2 hn3, rgbAt_fst, rgbAt_snd, rgbAt_thd]
  have b1 := gridVal_le_one _ hia
  have b2 := gridVal_le_one _ hja
  have b3 := gridVal_le_one _ hka
  rcases hcase with h | h | h
  · linarith [gridVal_lt_one _ h]
  · linarith [gridVal_lt_one _ h]
  · linarith [gridVal_lt_one _ h]

theorem argmax_seedHalf :
    npArgmax (seedMindist [((1 : ℚ) / 2, (1 : ℚ) / 2, (1 : ℚ) / 2)]) = 26999 := by
  have hlen := seedMindist_length [((1 : ℚ) / 2, (1 : ℚ) / 2, (1 : ℚ) / 2)]
  have h26999 : (26999 : ℕ) < totalGrid := by rw [totalGrid_eq]; omega
  apply npArgmax_eq_first_max _ 26999 (by rw [hlen]; exact h26999)
  · intro j hj hjt
    have hjtot : j < totalGrid := by rwa [hlen] at hj
    rw [← getDTop_eq _ j hj, ← getDTop_eq _ 26999 (by rw [hlen]; exact h26999),
      seedHalf_getD j hjtot, seedHalf_getD 26999 h26999, dist1_26999_zero]
    exact_mod_cast sumChannels_lt_three j hjt
  · intro j hj
    have hjtot : j < totalGrid := by rwa [hlen] at hj
    rw [← getDTop_eq _ j hj, ← getDTop_eq _ 26999 (by rw [hlen]; exact h26999),
      seedHalf_getD j hjtot, seedHalf_getD 26999 h26999, dist1_26999_zero]
    exact_mod_cast sumChannels_le_three j hjtot

theorem updateHalf_getD (j : ℕ) (hj : j < totalGrid) :
    (updateStep ((1 : ℚ) / 2, (1 : ℚ) / 2, (1 : ℚ) / 2)
        (seedMindist [((1 : ℚ) / 2, (1 : ℚ) / 2, (1 : ℚ) / 2)])).getD j ⊤ =
      ((min (dist1 (rgbAt j) ((0 : ℚ), (0 : ℚ), (0 : ℚ)))
          (dist1 (rgbAt j) ((1 : ℚ) / 2, (1 : ℚ) / 2, (1 : ℚ) / 2)) : ℚ) :
        WithTop ℚ) := by
  rw [updateStep_getD _ _ j hj (seedMindist_length _), seedHalf_getD j hj]
  exact (WithTop.coe_min _ _).symm

theorem abs_one_sub_half : |(1 : ℚ) - 1 / 2| = 1 / 2 := by
  rw [abs_of_nonneg (by norm_num)]
  norm_num

theorem abs_zero_sub_half : |(0 : ℚ) - 1 / 2| = 1 / 2 := by
  rw [abs_of_nonpos (by norm_num)]
  norm_num

theorem qvalHalf_899 :
    min (dist1 (rgbAt 899) ((0 : ℚ), (0 : ℚ), (0 : ℚ)))
      (dist1 (rgbAt 899) ((1 : ℚ) / 2, (1 : ℚ) / 2, (1 : ℚ) / 2)) = 3 / 2 := by
  rw [rgbAt_899, dist1_mk, dist1_mk, abs_one_sub_half, abs_zero_sub_half]
  rw [show |(1 : ℚ) - 0| = 1 by rw [abs_of_nonneg (by norm_num)]; norm_num,
    show |(0 : ℚ) - 0| = 0 by rw [abs_of_nonneg (by norm_num)]; norm_num]
  rw [min_eq_right (by norm_num)]
  norm_num

theorem qvalHalf_lt (j : ℕ) (hj : j < 899) :
    min (dist1 (rgbAt j) ((0 : ℚ), (0 : ℚ), (0 : ℚ)))
      (dist1 (rgbAt j) ((1 : ℚ) / 2, (1 : ℚ) / 2, (1 : ℚ) / 2)) < 3 / 2 := by
  have hk : j / (numGrid * numGrid) = 0 := by simp only [numGrid]; omega
  have hne : ¬((j / numGrid) % numGrid = 29 ∧ j % numGrid = 29) := by
    simp only [numGrid]
    omega
  have hia : (j / numGrid) % numGrid ≤ 29 := by simp only [numGrid]; omega
  have hja : j % numGrid ≤ 29 := by simp only [numGrid]; omega
  have hrj : rgbAt j =
      (gridVal ((j / numGrid) % numGrid), gridVal (j % numGrid), (0 : ℚ)) := by
    show (gridVal ((j / numGrid) % numGrid), gridVal (j % numGrid),
      gridVal (j / (numGrid * numGrid))) = _
    rw [hk, gridVal_zero]
  have ha0 : 0 ≤ gridVal ((j / numGrid) % numGrid) := gridVal_nonneg _
  have hb0 : 0 ≤ gridVal (j % numGrid) := gridVal_nonneg _
  have ha1 : gridVal ((j / numGrid) % numGrid) ≤ 1 := gridVal_le_one _ hia
  have hb1 : gridVal (j % numGrid) ≤ 1 := gridVal_le_one _ hja
  have habne : gridVal ((j / numGrid) % numGrid) < 1 ∨ gridVal (j % numGrid) < 1 := by
    rcases Nat.lt_or_ge ((j / numGrid) % numGrid) 29 with h | h
    · exact Or.inl (gridVal_lt_one _ h)
    · have hi29 : (j / numGrid) % numGrid = 29 := le_antisymm hia h
      rcases Nat.lt_or_ge (j % numGrid) 29 with h2 | h2
      · exact Or.inr (gridVal_lt_one _ h2)
      · exact absurd ⟨hi29, le_antisymm hja h2⟩ hne
  rw [hrj, dist1_mk, dist1_mk, abs_zero_sub_half, sub_zero, sub_zero, sub_zero,
    abs_of_nonneg ha0, abs_of_nonneg hb0, abs_zero]
  by_cases hab : gridVal ((j / numGrid) % numGrid) + gridVal (j % numGrid) < 3 / 2
  · exact lt_of_le_of_lt (min_le_left _ _) (by linarith)
  · push_neg at hab
    have hlt : |gridVal ((j / numGrid) % numGrid) - 1 / 2| +
        |gridVal (j % numGrid) - 1 / 2| + 1 / 2 < 3 / 2 := by
      rw [abs_of_nonneg (by linarith), abs_of_nonneg (by linarith)]
      rcases habne with h | h <;> linarith
    exact lt_of_le_of_lt (min_le_right _ _) hlt

theorem qvalHalf_le (j : ℕ) (hj : j < totalGrid) :
    min (dist1 (rgbAt j) ((0 : ℚ), (0 : ℚ), (0 : ℚ)))
      (dist1 (rgbAt j) ((1 : ℚ) / 2, (1 : ℚ) / 2, (1 : ℚ) / 2)) ≤ 3 / 2 :=
  le_trans (min_le_right _ _)
    (dist1_halfBound _ (rgbList_channels _ (rgbAt_mem_rgbList j hj)))

theorem argmax_updateHalf :
    npArgmax (updateStep ((1 : ℚ) / 2, (1 : ℚ) / 2, (1 : ℚ) / 2)
      (seedMindist [((1 : ℚ) / 2, (1 : ℚ) / 2, (1 : ℚ) / 2)])) = 899 := by
  have hlen : (updateStep ((1 : ℚ) / 2, (1 : ℚ) / 2, (1 : ℚ) / 2)
      (seedMindist [((1 : ℚ) / 2, (1 : ℚ) / 2, (1 : ℚ) / 2)])).length = totalGrid := by
    rw [updateStep_length, seedMindist_length]
    simp
  have h899 : (899 : ℕ) < totalGrid := by rw [totalGrid_eq]; omega
  apply npArgmax_eq_first_max _ 899 (by rw [hlen]; exact h899)
  · intro j hj hjt
    have hjtot : j < totalGrid := by rwa [hlen] at hj
    rw [← getDTop_eq _ j hj, ← getDTop_eq _ 899 (by rw [hlen]; exact h899),
      updateHalf_getD j hjtot, updateHalf_getD 899 h899, qvalHalf_899]
    exact_mod_cast qvalHalf_lt j hjt
  · intro j hj
    have hjtot : j < totalGrid := by rwa [hlen] at hj
    rw [← getDTop_eq _ j hj, ← getDTop_eq _ 899 (by rw [hlen]; exact h899),
      updateHalf_getD j hjtot, updateHalf_getD 899 h899, qvalHalf_899]
    exact_mod_cast qvalHalf_le j hjtot

/-- C3 (code bug evidence): the seeding loop measures distances to the
*int-truncated* background, not to the background itself.  With background
`(1/2, 1/2, 1/2)` the seeded entry of candidate 26999 = `(1,1,1)` is 3 (its
distance to the truncated `(0,0,0)`), although its L1 distance to the
background itself is 3/2. -/
theorem claim_C3_seed_uses_truncated_background :
    (seedMindist [((1 : ℚ) / 2, (1 : ℚ) / 2, (1 : ℚ) / 2)]).getD 26999 ⊤ =
      ((3 : ℚ) : WithTop ℚ) ∧
    dist1 (rgbAt 26999) ((1 : ℚ) / 2, (1 : ℚ) / 2, (1 : ℚ) / 2) = 3 / 2 := by
  have h26999 : (26999 : ℕ) < totalGrid := by rw [totalGrid_eq]; omega
  constructor
  · rw [seedHalf_getD 26999 h26999, dist1_26999_zero]
  · rw [rgbAt_26999, dist1_mk, abs_one_sub_half]
    norm_num [abs_one_sub_half]

/-- C4 counterexample: on the valid input `numColors = 1`,
`bgColors = [(1/2, 1/2, 1/2)]`, the original algorithm and the
skip-first-update variant return different lists: the first-iteration
update uses the untruncated background while the seeding used the
truncated one, so the update is not redundant. -/
theorem claim_C4_counterexample :
    getDistinguishableColors 1 [((1 : ℚ) / 2, (1 : ℚ) / 2, (1 : ℚ) / 2)] =
      .ok [((1 : ℚ), (1 : ℚ), (0 : ℚ))] ∧
    getDistinguishableColorsVariant 1 [((1 : ℚ) / 2, (1 : ℚ) / 2, (1 : ℚ) / 2)] =
      .ok [((1 : ℚ), (1 : ℚ), (1 : ℚ))] ∧
    getDistinguishableColors 1 [((1 : ℚ) / 2, (1 : ℚ) / 2, (1 : ℚ) / 2)] ≠
      getDistinguishableColorsVariant 1 [((1 : ℚ) / 2, (1 : ℚ) / 2, (1 : ℚ) / 2)] := by
  have hbg : ([((1 : ℚ) / 2, (1 : ℚ) / 2, (1 : ℚ) / 2)] : List Color) ≠ [] := by
    simp
  have h899 : (899 : ℕ) < totalGrid := by rw [totalGrid_eq]; omega
  have h26999 : (26999 : ℕ) < totalGrid := by rw [totalGrid_eq]; omega
  have horig : getDistinguishableColors 1 [((1 : ℚ) / 2, (1 : ℚ) / 2, (1 : ℚ) / 2)] =
      .ok [((1 : ℚ), (1 : ℚ), (0 : ℚ))] := by
    rw [getDC_ok 1 _ (by decide) hbg]
    show Except.ok
        (selectLoop 1 ((1 : ℚ) / 2, (1 : ℚ) / 2, (1 : ℚ) / 2)
          (seedMindist [((1 : ℚ) / 2, (1 : ℚ) / 2, (1 : ℚ) / 2)])) =
      Except.ok [((1 : ℚ), (1 : ℚ), (0 : ℚ))]
    simp only [selectLoop]
    rw [argmax_updateHalf, rgbList_getD 899 h899, rgbAt_899]
  have hvar : getDistinguishableColorsVariant 1
      [((1 : ℚ) / 2, (1 : ℚ) / 2, (1 : ℚ) / 2)] =
      .ok [((1 : ℚ), (1 : ℚ), (1 : ℚ))] := by
    rw [getDCVariant_ok 1 _ (by decide) hbg]
    show Except.ok
        (selectLoopVariant 1 (seedMindist [((1 : ℚ) / 2, (1 : ℚ) / 2, (1 : ℚ) / 2)])) =
      Except.ok [((1 : ℚ), (1 : ℚ), (1 : ℚ))]
    simp only [selectLoopVariant, selectLoop]
    rw [argmax_seedHalf, rgbList_getD 26999 h26999, rgbAt_26999]
  refine ⟨horig, hvar, ?_⟩
  rw [horig, hvar]
  simp

/-- C4 amended: the first loop iteration's re-application is redundant and
the variant agrees with the original whenever the last background color is
unchanged by the integer truncation of the seeding loop (in particular for
integer-valued backgrounds such as the default white); the counterexample
shows it is not redundant for fractional backgrounds. -/
theorem claim_C4_skip_first_update (n : ℤ) (bg : List Color)
    (h1 : 1 ≤ n) (h2 : n ≤ 9000) (h3 : bg ≠ [])
    (h4 : truncColor (bg.getLast h3) = bg.getLast h3) :
    getDistinguishableColors n bg = getDistinguishableColorsVariant n bg := by
  have hkey : updateStep (bg.getLast h3) (seedMindist bg) = seedMindist bg := by
    apply List.ext_getElem
    · rw [updateStep_length, seedMindist_length]
      simp
    · intro i hi1 hi2
      have hit : i < totalGrid := by rwa [seedMindist_length] at hi2
      rw [← getDTop_eq _ i hi1, ← getDTop_eq _ i hi2,
        updateStep_getD _ _ i hit (seedMindist_length bg)]
      apply min_eq_left
      rw [seedMindist_getD bg i hit]
      have hle := seedValAt_le (rgbAt i) bg (bg.getLast h3) (List.getLast_mem h3)
      rwa [h4] at hle
  rw [getDC_ok n bg h2 h3, getDCVariant_ok n bg h2 h3]
  congr 1
  cases hn : n.toNat with
  | zero => rfl
  | succ m =>
    simp only [selectLoop, selectLoopVariant]
    rw [hkey]

/-- Witness for the amended C4 at `numColors = 1`, `bgColors = [(1,1,1)]`
(integer-valued last background). -/
theorem claim_C4_witness :
    ((1 : ℤ) ≤ 1 ∧ (1 : ℤ) ≤ 9000 ∧
      ([((1 : ℚ), (1 : ℚ), (1 : ℚ))] : List Color) ≠ []) ∧
    getDistinguishableColors 1 [((1 : ℚ), (1 : ℚ), (1 : ℚ))] =
      getDistinguishableColorsVariant 1 [((1 : ℚ), (1 : ℚ), (1 : ℚ))] :=
  ⟨⟨by decide, by decide, by simp⟩,
    claim_C4_skip_first_update 1 [((1 : ℚ), (1 : ℚ), (1 : ℚ))] (by decide)
      (by decide) (by simp) truncColor_white⟩
